import Mathlib

/-!
Verification development for the MEETA DRIVE spreadsheet core
(`meeta_drive.py`): address codec, cell/sheet data model, formula
evaluator and persistence operations, shallowly embedded in Lean.

Conventions of the embedding:
* Python strings are Lean `String`s; character-level work happens on
  `String.data : List Char`.
* Python `float` cell contents are modelled as exact rationals (`Rat`);
  none of the verified properties depends on rounding.
* Code that can raise an exception is modelled with `Option` (for pure
  functions: `none` means the call raises) or with a `Bool` success flag
  paired with the state reached when the exception escapes (for the
  mutating operations, which in Python leave their partial writes behind).
-/

/-! ### Character and list utilities mirroring the Python primitives -/

/-- Model of Python `str.strip()` restricted to one side:
drop leading whitespace characters. -/
def leftTrimChars (cs : List Char) : List Char :=
  cs.dropWhile Char.isWhitespace

/-- Drop trailing whitespace characters. -/
def rightTrimChars (cs : List Char) : List Char :=
  ((cs.reverse).dropWhile Char.isWhitespace).reverse

/-- Model of Python `str.strip()`: drop whitespace on both ends. -/
def trimChars (cs : List Char) : List Char :=
  rightTrimChars (leftTrimChars cs)

/-- Model of Python `str.split(sep)` for a single-character separator
`sep` (the source only splits on `":"` and `","`): cut the character
list at every occurrence of `sep`; the result always has
(number of separators + 1) pieces. -/
def splitOnChar (sep : Char) : List Char → List (List Char)
  | [] => [[]]
  | c :: rest =>
    if c = sep then [] :: splitOnChar sep rest
    else (splitOnChar sep rest).modifyHead (fun h => c :: h)

/-- The character class `[A-Z]` of the reference regex. -/
def isUpperAZ (c : Char) : Bool := decide ('A' ≤ c ∧ c ≤ 'Z')

/-- The character class `\d` of the reference regex, restricted to the
ASCII digits `0`-`9` (the embedding models ASCII input). -/
def isDigit09 (c : Char) : Bool := decide ('0' ≤ c ∧ c ≤ '9')

/-- Numeric value of a list of decimal digit characters, as Python
`int()` computes it on a digit-only string. -/
def digitsVal (ds : List Char) : Nat :=
  ds.foldl (fun n c => n * 10 + (c.toNat - 48)) 0

/-! ### Address codec (`index_to_column`, `column_to_index`,
`cell_ref_to_indices`, `indices_to_cell_ref`) -/

/-- Loop body of `index_to_column` for a non-negative index.  The Python
loop repeatedly emits `chr(65 + index % 26)` at the front and continues
with `index // 26 - 1` until that is negative.  The structurally
decreasing `fuel` argument bounds the number of iterations; since the
index strictly decreases each round, `fuel = index + 1` always
suffices (`indexToColumnCharsAux_fuel` below). -/
def indexToColumnCharsAux : Nat → Nat → List Char
  | 0, _ => []
  | fuel + 1, index =>
    let c := Char.ofNat (65 + index % 26)
    if index < 26 then [c]
    else indexToColumnCharsAux fuel (index / 26 - 1) ++ [c]

/-- Characters produced by `index_to_column` on a non-negative index. -/
def indexToColumnChars (index : Nat) : List Char :=
  indexToColumnCharsAux (index + 1) index

/-- `index_to_column(index)`: 0-based column index to Excel-style
letters.  For a negative index the Python loop breaks immediately and
returns the empty string. -/
def index_to_column (index : Int) : String :=
  if index < 0 then "" else String.mk (indexToColumnChars index.toNat)

/-- `column_to_index(column)`: the fold `result = result * 26 +
(ord(char) - 64)` over the letters, minus one at the end.  Computed in
`Int` because Python `int` is unbounded and the final subtraction can
reach `-1` on the empty string. -/
def column_to_index (column : String) : Int :=
  (column.data.foldl (fun r c => r * 26 + ((c.toNat : Int) - 64)) 0) - 1

/-- `cell_ref_to_indices(cell_ref)`: model of
`re.match(r"([A-Z]+)(\d+)", cell_ref)`.  `re.match` anchors at the
start only, so the match succeeds exactly when the string begins with a
maximal run of uppercase letters followed by at least one digit;
anything after the digit run is ignored.  Returns
`(rowIndex, colIndex) = (int(digits) - 1, column_to_index(letters))`,
or `none` when the pattern does not match. -/
def cell_ref_to_indices (cell_ref : String) : Option (Int × Int) :=
  let letters := cell_ref.data.takeWhile isUpperAZ
  let rest := cell_ref.data.dropWhile isUpperAZ
  let digits := rest.takeWhile isDigit09
  if letters = [] ∨ digits = [] then none
  else some ((digitsVal digits : Int) - 1, column_to_index (String.mk letters))

/-- Decimal digit characters of a natural number, used to model the
Python f-string rendering of a non-negative `int`.  `fuel` plays the
same structural-termination role as in `indexToColumnCharsAux`. -/
def natToDecimalAux : Nat → Nat → List Char
  | 0, _ => []
  | fuel + 1, n =>
    if n < 10 then [Char.ofNat (48 + n)]
    else natToDecimalAux fuel (n / 10) ++ [Char.ofNat (48 + n % 10)]

/-- Decimal rendering of a natural number. -/
def natToDecimal (n : Nat) : List Char := natToDecimalAux (n + 1) n

/-- Decimal rendering of an integer, as `f"{n}"` produces it. -/
def intDecimal (n : Int) : List Char :=
  if n < 0 then '-' :: natToDecimal (-n).toNat else natToDecimal n.toNat

/-- `indices_to_cell_ref(row_index, col_index)`:
`f"{index_to_column(col_index)}{row_index + 1}"`. -/
def indices_to_cell_ref (row_index col_index : Int) : String :=
  index_to_column col_index ++ String.mk (intDecimal (row_index + 1))

/-! ### Data model: cells, sheets, evaluation results -/

/-- Result of `parse_formula`: a numeric aggregate (Python `float`/`int`,
modelled as `Rat`) or the verbatim formula text fallback. -/
inductive EvalResult where
  | num (q : Rat)
  | text (s : String)
deriving DecidableEq

/-- A cell dictionary.  The source stores the keys `value`, `formula`
and `cachedValue`; a key absent from the dictionary or set to Python
`None` is `none` here (both are falsy in every test the source makes,
so the embedding merges them). -/
structure Cell where
  value : Option String
  formula : Option String
  cachedValue : Option EvalResult
deriving DecidableEq

/-- An empty cell dictionary, as created by `sheet['cells'][ref] = {}`. -/
def emptyCell : Cell := { value := none, formula := none, cachedValue := none }

/-- A sheet: `{ 'id': ..., 'name': ..., 'cells': {...} }`.  The cell
dictionary is modelled as an association list in insertion order with
distinct keys; the unused `columns`/`rows` dictionaries (never read or
written by the core operations) are omitted. -/
structure Sheet where
  id : String
  name : String
  cells : List (String × Cell)
deriving DecidableEq

/-- Python dictionary lookup `sheet['cells'].get(cell_ref)` on the
association list (first matching key). -/
def lookupCell (cells : List (String × Cell)) (cell_ref : String) : Option Cell :=
  (cells.find? (fun p => p.1 == cell_ref)).map (fun p => p.2)

/-- Truthiness of an optional string field, as Python evaluates
`cell.get('value')` / `cell_data.get('formula')`: an absent key, `None`
or the empty string is falsy. -/
def truthyStr : Option String → Bool
  | some s => s ≠ ""
  | none => false

/-- Model of Python `float(s)` for the string contents the store
writes: optional surrounding whitespace, an optional sign, and decimal
digits with an optional fractional part (`"7"`, `"-2.5"`, `".5"`,
`"3."`).  Exponents, `inf`/`nan` and digit underscores are outside the
modelled fragment.  Returns `none` when `float()` raises `ValueError`. -/
def parseUnsigned? (cs : List Char) : Option Rat :=
  let intPart := cs.takeWhile isDigit09
  let rest := cs.dropWhile isDigit09
  match rest with
  | [] => if intPart = [] then none else some (digitsVal intPart : Rat)
  | '.' :: frac =>
    if frac.all isDigit09 ∧ (intPart ≠ [] ∨ frac ≠ []) then
      some ((digitsVal intPart : Rat) + (digitsVal frac : Rat) / (10 : Rat) ^ frac.length)
    else none
  | _ => none

/-- See `parseUnsigned?`; this wrapper handles `strip`-insensitivity of
`float()` and a leading sign. -/
def parseNumber? (s : String) : Option Rat :=
  match trimChars s.data with
  | '+' :: rest => parseUnsigned? rest
  | '-' :: rest => (parseUnsigned? rest).map (fun q => -q)
  | cs => parseUnsigned? cs

/-- Numeric contribution test for one visited reference, mirroring the
aggregation loop body:
`if cell_ref in sheet['cells'] and sheet['cells'][cell_ref].get('value'):
  try: float(...) except ValueError: pass`.
Returns the parsed number, or `none` when the cell is absent, its
`value` is absent/`None`/empty, or `float()` raises. -/
def numericAt? (sheet : Sheet) (cell_ref : String) : Option Rat :=
  match lookupCell sheet.cells cell_ref with
  | some cell =>
    match cell.value with
    | some v => if v ≠ "" then parseNumber? v else none
    | none => none
  | none => none

/-- `sum_value` accumulated over a list of references: each visited
reference adds its parsed value, and a skipped reference adds nothing
(written as adding `0`). -/
def sumRefs (sheet : Sheet) (refs : List String) : Rat :=
  refs.foldl (fun acc r => acc + ((numericAt? sheet r).getD 0)) 0

/-- Python `range(lo, hi + 1)` over integers. -/
def intRange (lo hi : Int) : List Int :=
  (List.range (hi + 1 - lo).toNat).map (fun i => lo + (i : Int))

/-- References visited by the normalized rectangle loops: rows
`min..max`, for each row the columns `min..max`, in source order. -/
def rectRefs (s e : Int × Int) : List String :=
  (intRange (min s.1 e.1) (max s.1 e.1)).flatMap (fun row =>
    (intRange (min s.2 e.2) (max s.2 e.2)).map (fun col =>
      indices_to_cell_ref row col))

/-- The `values` list collected by the AVERAGE range loop. -/
def avgValues (sheet : Sheet) (s e : Int × Int) : List Rat :=
  (rectRefs s e).filterMap (numericAt? sheet)

/-- `sum(values) / len(values)` with the explicit `return 0` fallback
for an empty list. -/
def avgRect (sheet : Sheet) (s e : Int × Int) : Rat :=
  let values := avgValues sheet s e
  if values = [] then 0 else values.sum / (values.length : Rat)

/-- `parse_formula(formula, sheet)` on the character list of the
formula string.  `none` models an exception escaping to the caller:
the only raising statement is the tuple unpacking
`start_ref, end_ref = range_text.split(":")`, which throws
`ValueError` when the split yields more than two pieces.

Two faithfulness notes.  First, when a range's corner references fail
to parse, the Python control flow falls out of the `SUM`
(resp. `AVERAGE`) block, cannot enter the other block (the body cannot
start with both keywords), and reaches the final
`return formula_text`; the embedding returns that text directly.
Second, `formula_text[4:-1]` is `(drop 4).dropLast` for every string
passing the two guards (the guards force length ≥ 5, resp. ≥ 9).
`parseFormulaBody` receives the already-stripped `formula_text`. -/
def parseFormulaBody (ft : List Char) (sheet : Sheet) : Option EvalResult :=
  if "SUM(".data.isPrefixOf ft ∧ ft.getLast? = some ')' then
    let range_text := (ft.drop 4).dropLast
    if ':' ∈ range_text then
      match splitOnChar ':' range_text with
      | [start_ref, end_ref] =>
        match cell_ref_to_indices (String.mk start_ref),
              cell_ref_to_indices (String.mk end_ref) with
        | some s, some e => some (.num (sumRefs sheet (rectRefs s e)))
        | some _, none => some (.text (String.mk ft))
        | none, _ => some (.text (String.mk ft))
      | _ => none
    else
      some (.num (sumRefs sheet
        ((splitOnChar ',' range_text).map (fun r => String.mk (trimChars r)))))
  else if "AVERAGE(".data.isPrefixOf ft ∧ ft.getLast? = some ')' then
    let range_text := (ft.drop 8).dropLast
    if ':' ∈ range_text then
      match splitOnChar ':' range_text with
      | [start_ref, end_ref] =>
        match cell_ref_to_indices (String.mk start_ref),
              cell_ref_to_indices (String.mk end_ref) with
        | some s, some e => some (.num (avgRect sheet s e))
        | some _, none => some (.text (String.mk ft))
        | none, _ => some (.text (String.mk ft))
      | _ => none
    else some (.text (String.mk ft))
  else some (.text (String.mk ft))

/-- `parse_formula(formula, sheet)` on the character list: strip the
optional `=` prefix, `strip()` the remainder, and evaluate the body. -/
def parseFormulaChars (cs : List Char) (sheet : Sheet) : Option EvalResult :=
  parseFormulaBody
    (if ['='].isPrefixOf cs then trimChars (cs.drop 1) else trimChars cs) sheet

/-- `parse_formula` on the string itself. -/
def parse_formula (formula : String) (sheet : Sheet) : Option EvalResult :=
  parseFormulaChars formula.data sheet

/-- One pass of `evaluate_worksheet_formulas` over the cell items in
insertion order.  `done` holds the items already visited (with their
refreshed `cachedValue`), `todo` the items still to visit; each
`parse_formula` call sees the whole dictionary in its current state,
exactly as the in-place Python mutation does.  The `Bool` is `false`
when `parse_formula` raises, in which case the partially updated
dictionary reached at that point is returned (the assignment for the
raising cell never happens). -/
def evalFormulasAux (sid sname : String) :
    List (String × Cell) → List (String × Cell) → Bool × List (String × Cell)
  | done, [] => (true, done)
  | done, (ref, cell) :: rest =>
    match cell.formula with
    | some f =>
      if f ≠ "" then
        match parse_formula f { id := sid, name := sname,
                                cells := done ++ (ref, cell) :: rest } with
        | some r =>
          evalFormulasAux sid sname
            (done ++ [(ref, { cell with cachedValue := some r })]) rest
        | none => (false, done ++ (ref, cell) :: rest)
      else evalFormulasAux sid sname (done ++ [(ref, cell)]) rest
    | none => evalFormulasAux sid sname (done ++ [(ref, cell)]) rest

/-- `evaluate_worksheet_formulas(worksheet)`: refresh `cachedValue` of
every formula-bearing cell.  The flag is `false` when the pass raised
part-way; the returned sheet is the state the dictionary reached. -/
def evaluate_worksheet_formulas (w : Sheet) : Bool × Sheet :=
  let r := evalFormulasAux w.id w.name [] w.cells
  (r.1, { w with cells := r.2 })

/-! ### Session state and store operations -/

/-- `st.session_state.spreadsheet_data`. -/
structure SpreadsheetData where
  activeSheet : String
  sheets : List Sheet
deriving DecidableEq

/-- A persisted record (`file_data`): id, display name, document data,
timestamps and owner. -/
structure FileData where
  fid : String
  fname : String
  data : SpreadsheetData
  updatedAt : String
  createdAt : String
  userId : Nat
deriving DecidableEq

/-- The mutable session state the core operations read and write.  The
purely view-local `active_cell` / `formula_value` fields are not used by
any verified operation and are omitted. -/
structure SessionState where
  spreadsheet_data : SpreadsheetData
  current_file : Option FileData
  is_modified : Bool
deriving DecidableEq

/-- The initial session state: one empty sheet `sheet1`, no current
file, dirty flag off. -/
def initialState : SessionState :=
  { spreadsheet_data :=
      { activeSheet := "sheet1",
        sheets := [{ id := "sheet1", name := "Sheet1", cells := [] }] },
    current_file := none,
    is_modified := false }

/-- The partial-update dictionary passed to `update_cell`: an outer
`some` means the key is present in `data` (its payload may still be
Python `None`, i.e. the inner `none`). -/
structure CellUpdate where
  value : Option (Option String)
  formula : Option (Option String)
  cachedValue : Option (Option EvalResult)
deriving DecidableEq

/-- `for key, value in data.items(): cell[key] = value` — keys present
in the update overwrite the stored field, absent keys are untouched. -/
def applyUpdate (c : Cell) (u : CellUpdate) : Cell :=
  { value := u.value.getD c.value,
    formula := u.formula.getD c.formula,
    cachedValue := u.cachedValue.getD c.cachedValue }

/-- `next((s for s in sheets if s['id'] == sheet_id), None)`. -/
def findSheet (sheets : List Sheet) (sheet_id : String) : Option Sheet :=
  sheets.find? (fun s => s.id == sheet_id)

/-- Overwrite the first entry with the given key. -/
def updateEntry (ref : String) (u : CellUpdate) :
    List (String × Cell) → List (String × Cell)
  | [] => []
  | (r, c) :: rest =>
    if r = ref then (r, applyUpdate c u) :: rest
    else (r, c) :: updateEntry ref u rest

/-- The cell-dictionary effect of `update_cell`: create the entry as
`{}` if absent (a fresh key is appended at the end, per dict insertion
order), then apply the key-wise merge. -/
def setCellData (cells : List (String × Cell)) (ref : String)
    (u : CellUpdate) : List (String × Cell) :=
  if cells.any (fun p => p.1 == ref) then updateEntry ref u cells
  else cells ++ [(ref, applyUpdate emptyCell u)]

/-- Apply `f` to the first sheet with the given id (the object
`next(...)` returned and the source then mutates in place). -/
def updateSheetInList (sheet_id : String) (f : Sheet → Sheet) :
    List Sheet → List Sheet
  | [] => []
  | s :: rest =>
    if s.id = sheet_id then f s :: rest
    else s :: updateSheetInList sheet_id f rest

/-- Run `evaluate_worksheet_formulas` on the first sheet with the given
id inside the sheet list, propagating its success flag. -/
def evalSheetInList (sheet_id : String) : List Sheet → Bool × List Sheet
  | [] => (true, [])
  | s :: rest =>
    if s.id = sheet_id then
      let r := evaluate_worksheet_formulas s
      (r.1, r.2 :: rest)
    else
      let r := evalSheetInList sheet_id rest
      (r.1, s :: r.2)

/-- `update_cell(sheet_id, cell_ref, data)`.  When the sheet id is
unknown the function returns silently with the state untouched.
Otherwise it writes the cell, sets the dirty flag, and — when the
update carries a `formula` or `value` key — re-evaluates every formula
of that sheet; the `Bool` is `false` when that re-evaluation raises
(the cell write and the dirty flag remain in place in that case). -/
def update_cell (st : SessionState) (sheet_id cell_ref : String)
    (data : CellUpdate) : Bool × SessionState :=
  match findSheet st.spreadsheet_data.sheets sheet_id with
  | none => (true, st)
  | some _ =>
    let sheets1 := updateSheetInList sheet_id
      (fun s => { s with cells := setCellData s.cells cell_ref data })
      st.spreadsheet_data.sheets
    let st1 : SessionState :=
      { st with
        spreadsheet_data := { st.spreadsheet_data with sheets := sheets1 },
        is_modified := true }
    if data.formula.isSome ∨ data.value.isSome then
      let r := evalSheetInList sheet_id sheets1
      (r.1, { st1 with
              spreadsheet_data := { st1.spreadsheet_data with sheets := r.2 } })
    else (true, st1)

/-- `set_active_sheet(sheet_id)`: a single unconditional assignment to
the `activeSheet` pointer. -/
def set_active_sheet (st : SessionState) (sheet_id : String) : SessionState :=
  { st with spreadsheet_data :=
      { st.spreadsheet_data with activeSheet := sheet_id } }

/-- The durable store: persisted records keyed by file id (the file
`{file_id}.json` holds the record). -/
abbrev Store := List (String × FileData)

/-- Read the record for a file id. -/
def storeGet (store : Store) (file_id : String) : Option FileData :=
  (store.find? (fun p => p.1 == file_id)).map (fun p => p.2)

/-- Write (insert or overwrite) the record for a file id. -/
def storePut (store : Store) (file_id : String) (fd : FileData) : Store :=
  if store.any (fun p => p.1 == file_id) then
    store.map (fun p => if p.1 == file_id then (p.1, fd) else p)
  else store ++ [(file_id, fd)]

/-- Truthiness of the optional `name` argument of `save_spreadsheet`
(`None` and the empty string are falsy in `not name` and `name or ...`). -/
def truthyName : Option String → Bool
  | some s => s ≠ ""
  | none => false

/-- `save_spreadsheet(name)`.  The effectful ingredients are passed
explicitly: `writeOk` is whether the file write succeeds, `freshId` the
`uuid4` drawn for a first save, `now` the current timestamp.  Returns
the success flag with the session state and store after the call: on a
falsy-name-without-current-file early return and on a write failure
both are unchanged; on success the record is written, `current_file`
points at it and the dirty flag is cleared. -/
def save_spreadsheet (st : SessionState) (store : Store) (writeOk : Bool)
    (name : Option String) (freshId now : String) :
    Bool × SessionState × Store :=
  if truthyName name = false ∧ st.current_file = none then (false, st, store)
  else
    let filename :=
      if truthyName name then name.getD ""
      else match st.current_file with
           | some f => f.fname
           | none => ""
    let file_id := match st.current_file with
                   | some f => f.fid
                   | none => freshId
    let createdAt := match st.current_file with
                     | some f => f.createdAt
                     | none => now
    let fd : FileData :=
      { fid := file_id, fname := filename, data := st.spreadsheet_data,
        updatedAt := now, createdAt := createdAt, userId := 1 }
    if writeOk then
      (true,
       { st with current_file := some fd, is_modified := false },
       storePut store file_id fd)
    else (false, st, store)

/-- Evaluate every sheet of a freshly loaded document in order,
stopping at (and keeping the partial result of) a raising sheet, as the
`for sheet in ...: evaluate_worksheet_formulas(sheet)` loop does when
an exception escapes. -/
def evalAllSheets : List Sheet → List Sheet → Bool × List Sheet
  | done, [] => (true, done)
  | done, s :: rest =>
    let r := evaluate_worksheet_formulas s
    if r.1 then evalAllSheets (done ++ [r.2]) rest
    else (false, done ++ r.2 :: rest)

/-- `load_spreadsheet(file_id)`.  A missing record makes `open` raise
before any assignment, so the state is returned unchanged with
`False`.  Otherwise the document is installed, `current_file` set and
the dirty flag cleared, and only then are the formulas re-evaluated —
the surrounding `try` means a raising formula yields `False` with the
newly loaded (partially re-evaluated) document left in place. -/
def load_spreadsheet (st : SessionState) (store : Store) (file_id : String) :
    Bool × SessionState :=
  match storeGet store file_id with
  | none => (false, st)
  | some fd =>
    let r := evalAllSheets [] fd.data.sheets
    (r.1,
     { spreadsheet_data := { fd.data with sheets := r.2 },
       current_file := some fd,
       is_modified := false })

/-- Field-wise frame relation used to state what a re-evaluation pass
may change: the key and the `value`/`formula` fields are preserved, and
an entry whose `formula` is not truthy is preserved entirely. -/
def cellFramed (p q : String × Cell) : Prop :=
  q.1 = p.1 ∧ q.2.value = p.2.value ∧ q.2.formula = p.2.formula ∧
    (truthyStr p.2.formula = false → q.2 = p.2)

/-- Comma-joined argument list, used to state properties of formulas
built from a list of references (`joinWith ',' [r1, r2] = r1,r2`). -/
def joinWith (sep : Char) : List (List Char) → List Char
  | [] => []
  | [p] => p
  | p :: q :: rest => p ++ sep :: joinWith sep (q :: rest)

/-- The empty default sheet, convenient for concrete instances. -/
def emptySheet : Sheet := { id := "sheet1", name := "Sheet1", cells := [] }

/-- A persisted record whose single sheet carries a stored formula with
two colons in its range argument, on which `parse_formula` raises. -/
def crashFileData : FileData :=
  { fid := "f1", fname := "Crash",
    data :=
      { activeSheet := "s1",
        sheets := [{ id := "s1", name := "Sheet1",
                     cells := [("B1", { value := none,
                                        formula := some "=SUM(A1:B2:C3)",
                                        cachedValue := none })] }] },
    updatedAt := "t1", createdAt := "t0", userId := 1 }

/-! ### Basic lemmas about the utilities -/

theorem splitOnChar_length (sep : Char) (cs : List Char) :
    (splitOnChar sep cs).length = cs.count sep + 1 := by
  induction cs with
  | nil => simp [splitOnChar]
  | cons c rest ih =>
    by_cases h : c = sep
    · subst h
      simp [splitOnChar, ih, List.count_cons]
    · simp [splitOnChar, h, List.length_modifyHead, ih, List.count_cons]

theorem splitOnChar_not_mem {sep : Char} {cs : List Char} (h : sep ∉ cs) :
    splitOnChar sep cs = [cs] := by
  induction cs with
  | nil => simp [splitOnChar]
  | cons c rest ih =>
    have hc : c ≠ sep := fun he => h (he ▸ List.mem_cons_self c rest)
    have hr : sep ∉ rest := fun hm => h (List.mem_cons_of_mem c hm)
    simp [splitOnChar, hc, ih hr]

theorem splitOnChar_append_sep {sep : Char} {l : List Char}
    (r : List Char) (h : sep ∉ l) :
    splitOnChar sep (l ++ sep :: r) = l :: splitOnChar sep r := by
  induction l with
  | nil => simp [splitOnChar]
  | cons c cs ih =>
    have hc : c ≠ sep := fun he => h (he ▸ List.mem_cons_self c cs)
    have hcs : sep ∉ cs := fun hm => h (List.mem_cons_of_mem c hm)
    simp [splitOnChar, hc, ih hcs]

theorem leftTrimChars_cons_of_not_ws {c : Char} (cs : List Char)
    (h : c.isWhitespace = false) : leftTrimChars (c :: cs) = c :: cs := by
  simp [leftTrimChars, List.dropWhile_cons, h]

theorem rightTrimChars_concat_of_not_ws {c : Char} (cs : List Char)
    (h : c.isWhitespace = false) : rightTrimChars (cs ++ [c]) = cs ++ [c] := by
  simp [rightTrimChars, List.dropWhile_cons, h]

/-- A string whose first and last characters are not whitespace is left
unchanged by `strip()`. -/
theorem trimChars_eq_self {a b : Char} (mid : List Char)
    (ha : a.isWhitespace = false) (hb : b.isWhitespace = false) :
    trimChars (a :: mid ++ [b]) = a :: mid ++ [b] := by
  have h1 : leftTrimChars (a :: (mid ++ [b])) = a :: (mid ++ [b]) :=
    leftTrimChars_cons_of_not_ws _ ha
  have h2 : rightTrimChars ((a :: mid) ++ [b]) = (a :: mid) ++ [b] :=
    rightTrimChars_concat_of_not_ws _ hb
  simp only [trimChars]
  rw [show a :: mid ++ [b] = a :: (mid ++ [b]) by simp]
  rw [h1]
  rw [show a :: (mid ++ [b]) = (a :: mid) ++ [b] by simp]
  exact h2

theorem count_leftTrimChars_le (c : Char) (cs : List Char) :
    (leftTrimChars cs).count c ≤ cs.count c :=
  (List.dropWhile_sublist _).count_le c

theorem count_rightTrimChars_le (c : Char) (cs : List Char) :
    (rightTrimChars cs).count c ≤ cs.count c := by
  have h := (List.dropWhile_sublist (l := cs.reverse) Char.isWhitespace).count_le c
  simpa [rightTrimChars, List.count_reverse] using h

theorem count_trimChars_le (c : Char) (cs : List Char) :
    (trimChars cs).count c ≤ cs.count c :=
  le_trans (count_rightTrimChars_le c _) (count_leftTrimChars_le c cs)

theorem isPrefixOf_append_self (p rest : List Char) :
    p.isPrefixOf (p ++ rest) = true := by
  induction p with
  | nil => simp [List.isPrefixOf]
  | cons a as ih => simp [List.isPrefixOf, ih]

/-! ### Codec correctness lemmas -/

theorem char_ofNat_letter_toNat : ∀ r : Nat, r < 26 →
    (Char.ofNat (65 + r)).toNat = 65 + r := by decide

theorem char_ofNat_letter_upper : ∀ r : Nat, r < 26 →
    isUpperAZ (Char.ofNat (65 + r)) = true := by decide

theorem char_ofNat_digit_toNat : ∀ d : Nat, d < 10 →
    (Char.ofNat (48 + d)).toNat = 48 + d := by decide

theorem char_ofNat_digit_isDigit : ∀ d : Nat, d < 10 →
    isDigit09 (Char.ofNat (48 + d)) = true := by decide

theorem digit_not_upper {c : Char} (h : isDigit09 c = true) :
    isUpperAZ c = false := by
  simp only [isDigit09, decide_eq_true_eq] at h
  simp only [isUpperAZ, decide_eq_false_iff_not]
  intro hu
  have : ('A' : Char) ≤ '9' := le_trans hu.1 h.2
  exact absurd this (by decide)

theorem indexToColumnCharsAux_ne_nil (fuel : Nat) :
    ∀ i : Nat, i < fuel → indexToColumnCharsAux fuel i ≠ [] := by
  induction fuel with
  | zero => intro i h; omega
  | succ fuel _ =>
    intro i _
    by_cases h26 : i < 26 <;> simp [indexToColumnCharsAux, h26]

theorem mem_indexToColumnCharsAux_upper (fuel : Nat) :
    ∀ i : Nat, ∀ ch ∈ indexToColumnCharsAux fuel i, isUpperAZ ch = true := by
  induction fuel with
  | zero => intro i ch h; simp [indexToColumnCharsAux] at h
  | succ fuel ih =>
    intro i ch h
    by_cases h26 : i < 26
    · simp [indexToColumnCharsAux, h26] at h
      subst h
      exact char_ofNat_letter_upper _ (Nat.mod_lt _ (by omega))
    · simp [indexToColumnCharsAux, h26] at h
      rcases h with h | h
      · exact ih _ ch h
      · subst h
        exact char_ofNat_letter_upper _ (Nat.mod_lt _ (by omega))

theorem colFold_indexToColumnCharsAux (fuel : Nat) :
    ∀ i : Nat, i < fuel →
      (indexToColumnCharsAux fuel i).foldl
        (fun r c => r * 26 + ((c.toNat : Int) - 64)) 0 = (i : Int) + 1 := by
  induction fuel with
  | zero => intro i h; omega
  | succ fuel ih =>
    intro i hi
    by_cases h26 : i < 26
    · have hm : i % 26 = i := Nat.mod_eq_of_lt h26
      have hc : (Char.ofNat (65 + i)).toNat = 65 + i := by
        have := char_ofNat_letter_toNat (i % 26) (Nat.mod_lt _ (by omega))
        rwa [hm] at this
      simp [indexToColumnCharsAux, h26, hm, hc]
      omega
    · have hlt : i / 26 - 1 < fuel := by
        have h1 : i / 26 < i := Nat.div_lt_self (by omega) (by omega)
        omega
      have ihv := ih (i / 26 - 1) hlt
      have hc := char_ofNat_letter_toNat (i % 26) (Nat.mod_lt _ (by omega))
      simp [indexToColumnCharsAux, h26, List.foldl_append, ihv, hc]
      have hdm := Nat.div_add_mod i 26
      have h1 : 1 ≤ i / 26 := Nat.one_le_div_iff (by omega) |>.mpr (by omega)
      omega

theorem colFold_indexToColumnChars (i : Nat) :
    (indexToColumnChars i).foldl
      (fun r c => r * 26 + ((c.toNat : Int) - 64)) 0 = (i : Int) + 1 :=
  colFold_indexToColumnCharsAux (i + 1) i (Nat.lt_succ_self i)

theorem natToDecimalAux_ne_nil (fuel : Nat) :
    ∀ n : Nat, n < fuel → natToDecimalAux fuel n ≠ [] := by
  induction fuel with
  | zero => intro n h; omega
  | succ fuel _ =>
    intro n _
    by_cases h10 : n < 10 <;> simp [natToDecimalAux, h10]

theorem mem_natToDecimalAux_digit (fuel : Nat) :
    ∀ n : Nat, ∀ ch ∈ natToDecimalAux fuel n, isDigit09 ch = true := by
  induction fuel with
  | zero => intro n ch h; simp [natToDecimalAux] at h
  | succ fuel ih =>
    intro n ch h
    by_cases h10 : n < 10
    · simp [natToDecimalAux, h10] at h
      subst h
      exact char_ofNat_digit_isDigit _ h10
    · simp [natToDecimalAux, h10] at h
      rcases h with h | h
      · exact ih _ ch h
      · subst h
        exact char_ofNat_digit_isDigit _ (Nat.mod_lt _ (by omega))

theorem digitsVal_natToDecimalAux (fuel : Nat) :
    ∀ n : Nat, n < fuel → digitsVal (natToDecimalAux fuel n) = n := by
  induction fuel with
  | zero => intro n h; omega
  | succ fuel ih =>
    intro n hn
    by_cases h10 : n < 10
    · have hc := char_ofNat_digit_toNat n h10
      simp [natToDecimalAux, h10, digitsVal, hc]
    · have hlt : n / 10 < fuel := by
        have h1 : n / 10 < n := Nat.div_lt_self (by omega) (by omega)
        omega
      have ihv := ih (n / 10) hlt
      have hc := char_ofNat_digit_toNat (n % 10) (Nat.mod_lt _ (by omega))
      simp only [natToDecimalAux, h10, if_false, digitsVal] at *
      rw [List.foldl_append]
      simp only [List.foldl_cons, List.foldl_nil, ihv, hc]
      have hdm := Nat.div_add_mod n 10
      omega

theorem digitsVal_natToDecimal (n : Nat) : digitsVal (natToDecimal n) = n :=
  digitsVal_natToDecimalAux (n + 1) n (Nat.lt_succ_self n)

theorem takeWhile_append_of_all {p : Char → Bool} {l : List Char}
    (r : List Char) (hl : ∀ x ∈ l, p x = true) :
    (l ++ r).takeWhile p = l ++ r.takeWhile p := by
  induction l with
  | nil => simp
  | cons a as ih =>
    have ha : p a = true := hl a (List.mem_cons_self a as)
    simp [List.takeWhile_cons, ha, ih fun x hx => hl x (List.mem_cons_of_mem a hx)]

theorem dropWhile_append_of_all {p : Char → Bool} {l : List Char}
    (r : List Char) (hl : ∀ x ∈ l, p x = true) :
    (l ++ r).dropWhile p = r.dropWhile p := by
  induction l with
  | nil => simp
  | cons a as ih =>
    have ha : p a = true := hl a (List.mem_cons_self a as)
    simp [List.dropWhile_cons, ha, ih fun x hx => hl x (List.mem_cons_of_mem a hx)]

theorem takeWhile_of_all {p : Char → Bool} {l : List Char}
    (hl : ∀ x ∈ l, p x = true) : l.takeWhile p = l := by
  induction l with
  | nil => simp
  | cons a as ih =>
    have ha : p a = true := hl a (List.mem_cons_self a as)
    simp [List.takeWhile_cons, ha, ih fun x hx => hl x (List.mem_cons_of_mem a hx)]

/-! ### Codec roundtrip lemmas -/

theorem column_to_index_index_to_column (c : Nat) :
    column_to_index (index_to_column (c : Int)) = (c : Int) := by
  have hneg : ¬ ((c : Int) < 0) := by omega
  have htn : ((c : Int)).toNat = c := by omega
  simp only [index_to_column, hneg, if_false, htn, column_to_index]
  rw [colFold_indexToColumnChars c]
  omega

theorem cell_ref_to_indices_indices_to_cell_ref (row col : Nat) :
    cell_ref_to_indices (indices_to_cell_ref (row : Int) (col : Int)) =
      some ((row : Int), (col : Int)) := by
  have hnegc : ¬ ((col : Int) < 0) := by omega
  have htc : ((col : Int)).toNat = col := by omega
  have hnegr : ¬ ((row : Int) + 1 < 0) := by omega
  have htr : ((row : Int) + 1).toNat = row + 1 := by omega
  set L := indexToColumnChars col with hL
  set D := natToDecimal (row + 1) with hD
  have hdata : (indices_to_cell_ref (row : Int) (col : Int)).data = L ++ D := by
    simp only [indices_to_cell_ref, index_to_column, hnegc, if_false, htc,
      intDecimal, hnegr, if_false, htr, String.data_append]
  have hLup : ∀ x ∈ L, isUpperAZ x = true :=
    fun x hx => mem_indexToColumnCharsAux_upper (col + 1) col x hx
  have hLne : L ≠ [] := indexToColumnCharsAux_ne_nil (col + 1) col (Nat.lt_succ_self col)
  have hDdig : ∀ x ∈ D, isDigit09 x = true :=
    fun x hx => mem_natToDecimalAux_digit (row + 2) (row + 1) x hx
  have hDne : D ≠ [] :=
    natToDecimalAux_ne_nil (row + 2) (row + 1) (by omega)
  have htake : (L ++ D).takeWhile isUpperAZ = L := by
    rw [takeWhile_append_of_all D hLup]
    cases hcD : D with
    | nil => exact absurd hcD hDne
    | cons d ds =>
      have hdd : isDigit09 d = true := hDdig d (by rw [hcD]; exact List.mem_cons_self d ds)
      simp [List.takeWhile_cons, digit_not_upper hdd]
  have hdrop : (L ++ D).dropWhile isUpperAZ = D := by
    rw [dropWhile_append_of_all D hLup]
    cases hcD : D with
    | nil => exact absurd hcD hDne
    | cons d ds =>
      have hdd : isDigit09 d = true := hDdig d (by rw [hcD]; exact List.mem_cons_self d ds)
      simp [List.dropWhile_cons, digit_not_upper hdd]
  have hdig : D.takeWhile isDigit09 = D := takeWhile_of_all hDdig
  have hval : digitsVal D = row + 1 := digitsVal_natToDecimal (row + 1)
  have hcol :
      column_to_index (String.mk L) = (col : Int) := by
    simp only [column_to_index]
    rw [hL, colFold_indexToColumnChars col]
    omega
  simp only [cell_ref_to_indices, hdata, htake, hdrop, hdig]
  rw [if_neg (by simp [hLne, hDne])]
  rw [hval, hcol]
  simp only [Option.some.injEq, Prod.mk.injEq]
  exact ⟨by omega, trivial⟩

/-! ### Shape lemmas for `parse_formula` -/

theorem not_eq_isPrefixOf {c : Char} (h : c ≠ '=') (rest : List Char) :
    (['='] : List Char).isPrefixOf (c :: rest) = false := by
  simp only [List.isPrefixOf, Bool.and_eq_false_iff, beq_eq_false_iff_ne]
  exact Or.inl fun hh => h hh.symm

theorem trimChars_keyword {a : Char} (mid : List Char)
    (ha : a.isWhitespace = false) :
    trimChars (a :: mid ++ [')']) = a :: mid ++ [')'] :=
  trimChars_eq_self mid ha (by decide)

/-- Evaluation of the `SUM` branch on a formula of the exact shape
`SUM(<X>)`: the guards pass, and the body `X` is dispatched on the
presence of a colon. -/
theorem parseFormulaChars_sum_shape (sheet : Sheet) (X : List Char) :
    parseFormulaChars ("SUM(".data ++ X ++ [')']) sheet =
      (if ':' ∈ X then
        match splitOnChar ':' X with
        | [start_ref, end_ref] =>
          match cell_ref_to_indices (String.mk start_ref),
                cell_ref_to_indices (String.mk end_ref) with
          | some s, some e => some (.num (sumRefs sheet (rectRefs s e)))
          | some _, none => some (.text (String.mk ("SUM(".data ++ X ++ [')'])))
          | none, _ => some (.text (String.mk ("SUM(".data ++ X ++ [')'])))
        | _ => none
      else
        some (.num (sumRefs sheet
          ((splitOnChar ',' X).map (fun r => String.mk (trimChars r)))))) := by
  have hS : "SUM(".data = ['S', 'U', 'M', '('] := rfl
  have hpr : (['='] : List Char).isPrefixOf ("SUM(".data ++ X ++ [')']) = false := by
    rw [hS]
    exact not_eq_isPrefixOf (by decide) _
  have htr : trimChars ("SUM(".data ++ X ++ [')']) = "SUM(".data ++ X ++ [')'] := by
    have h := trimChars_keyword (a := 'S') (['U', 'M', '('] ++ X) (by decide)
    rw [hS]
    simpa using h
  have hpre : "SUM(".data.isPrefixOf ("SUM(".data ++ X ++ [')']) = true :=
    isPrefixOf_append_self ("SUM(".data) (X ++ [')'])
  have hlast : ("SUM(".data ++ X ++ [')']).getLast? = some ')' := by
    have h := List.getLast?_concat (a := ')') ("SUM(".data ++ X)
    simpa using h
  have hdrop : ("SUM(".data ++ X ++ [')']).drop 4 = X ++ [')'] := by
    rw [hS]
    simp
  have hdl : (X ++ [')']).dropLast = X := List.dropLast_concat
  simp only [parseFormulaChars, parseFormulaBody, hpr, Bool.false_eq_true,
    if_false, htr, hpre, hlast, hdrop, hdl, and_self, if_true]

/-- Evaluation of the `AVERAGE` branch on a formula of the exact shape
`AVERAGE(<X>)` (which never enters the `SUM` branch). -/
theorem parseFormulaChars_avg_shape (sheet : Sheet) (X : List Char) :
    parseFormulaChars ("AVERAGE(".data ++ X ++ [')']) sheet =
      (if ':' ∈ X then
        match splitOnChar ':' X with
        | [start_ref, end_ref] =>
          match cell_ref_to_indices (String.mk start_ref),
                cell_ref_to_indices (String.mk end_ref) with
          | some s, some e => some (.num (avgRect sheet s e))
          | some _, none =>
            some (.text (String.mk ("AVERAGE(".data ++ X ++ [')'])))
          | none, _ =>
            some (.text (String.mk ("AVERAGE(".data ++ X ++ [')'])))
        | _ => none
      else
        some (.text (String.mk ("AVERAGE(".data ++ X ++ [')'])))) := by
  have hA : "AVERAGE(".data = ['A', 'V', 'E', 'R', 'A', 'G', 'E', '('] := rfl
  have hpr : (['='] : List Char).isPrefixOf ("AVERAGE(".data ++ X ++ [')']) = false := by
    rw [hA]
    exact not_eq_isPrefixOf (by decide) _
  have htr : trimChars ("AVERAGE(".data ++ X ++ [')']) =
      "AVERAGE(".data ++ X ++ [')'] := by
    have h := trimChars_keyword (a := 'A')
      (['V', 'E', 'R', 'A', 'G', 'E', '('] ++ X) (by decide)
    rw [hA]
    simpa using h
  have hnosum : "SUM(".data.isPrefixOf ("AVERAGE(".data ++ X ++ [')']) = false := by
    rw [hA]
    simp [List.isPrefixOf]
  have hpre : "AVERAGE(".data.isPrefixOf ("AVERAGE(".data ++ X ++ [')']) = true :=
    isPrefixOf_append_self ("AVERAGE(".data) (X ++ [')'])
  have hlast : ("AVERAGE(".data ++ X ++ [')']).getLast? = some ')' := by
    have h := List.getLast?_concat (a := ')') ("AVERAGE(".data ++ X)
    simpa using h
  have hdrop : ("AVERAGE(".data ++ X ++ [')']).drop 8 = X ++ [')'] := by
    rw [hA]
    simp
  have hdl : (X ++ [')']).dropLast = X := List.dropLast_concat
  simp only [parseFormulaChars, parseFormulaBody, hpr, Bool.false_eq_true,
    if_false, htr, hnosum, false_and, hpre, hlast, hdrop, hdl, and_self, if_true]

/-- A `SUM` range formula with parseable corner references evaluates to
the rectangle sum. -/
theorem parseFormulaChars_sum_range (sheet : Sheet) (r1 r2 : List Char)
    (p1 p2 : Int × Int) (h1 : ':' ∉ r1) (h2 : ':' ∉ r2)
    (hp1 : cell_ref_to_indices (String.mk r1) = some p1)
    (hp2 : cell_ref_to_indices (String.mk r2) = some p2) :
    parseFormulaChars ("SUM(".data ++ (r1 ++ ':' :: r2) ++ [')']) sheet =
      some (.num (sumRefs sheet (rectRefs p1 p2))) := by
  rw [parseFormulaChars_sum_shape]
  rw [if_pos (by simp)]
  rw [splitOnChar_append_sep r2 h1, splitOnChar_not_mem h2]
  dsimp only
  rw [hp1, hp2]

/-- A `SUM` comma-list formula (no colon in the body) evaluates to the
sum over the comma-separated, whitespace-trimmed references. -/
theorem parseFormulaChars_sum_list (sheet : Sheet) (X : List Char)
    (h : ':' ∉ X) :
    parseFormulaChars ("SUM(".data ++ X ++ [')']) sheet =
      some (.num (sumRefs sheet
        ((splitOnChar ',' X).map (fun r => String.mk (trimChars r))))) := by
  rw [parseFormulaChars_sum_shape]
  rw [if_neg h]

/-- An `AVERAGE` range formula with parseable corner references
evaluates to the rectangle average. -/
theorem parseFormulaChars_avg_range (sheet : Sheet) (r1 r2 : List Char)
    (p1 p2 : Int × Int) (h1 : ':' ∉ r1) (h2 : ':' ∉ r2)
    (hp1 : cell_ref_to_indices (String.mk r1) = some p1)
    (hp2 : cell_ref_to_indices (String.mk r2) = some p2) :
    parseFormulaChars ("AVERAGE(".data ++ (r1 ++ ':' :: r2) ++ [')']) sheet =
      some (.num (avgRect sheet p1 p2)) := by
  rw [parseFormulaChars_avg_shape]
  rw [if_pos (by simp)]
  rw [splitOnChar_append_sep r2 h1, splitOnChar_not_mem h2]
  dsimp only
  rw [hp1, hp2]

/-- An `AVERAGE` comma-list formula (no colon in the body) is not a
supported shape: it falls through to the verbatim-text fallback. -/
theorem parseFormulaChars_avg_list (sheet : Sheet) (X : List Char)
    (h : ':' ∉ X) :
    parseFormulaChars ("AVERAGE(".data ++ X ++ [')']) sheet =
      some (.text (String.mk ("AVERAGE(".data ++ X ++ [')']))) := by
  rw [parseFormulaChars_avg_shape]
  rw [if_neg h]

/-! ### No-crash lemma for formulas with at most one colon -/

theorem list_length_two {α : Type} {l : List α} (h : l.length = 2) :
    ∃ a b, l = [a, b] := by
  match l, h with
  | [a, b], _ => exact ⟨a, b, rfl⟩

theorem count_colon_formulaText_le (cs : List Char) :
    (if (['='] : List Char).isPrefixOf cs then trimChars (cs.drop 1)
     else trimChars cs).count ':' ≤ cs.count ':' := by
  by_cases h : (['='] : List Char).isPrefixOf cs
  · rw [if_pos h]
    exact le_trans (count_trimChars_le ':' (cs.drop 1))
      ((List.drop_sublist 1 cs).count_le ':')
  · rw [if_neg h]
    exact count_trimChars_le ':' cs

/-- `parse_formula` can only raise through the two-variable unpacking of
`range_text.split(":")`; with at most one colon in the (stripped)
formula body the split has at most two pieces and every path returns. -/
theorem parseFormulaBody_isSome_of_colons (ft : List Char) (sheet : Sheet)
    (h : ft.count ':' ≤ 1) : (parseFormulaBody ft sheet).isSome = true := by
  have hsub : ∀ k : Nat, ((ft.drop k).dropLast).count ':' ≤ 1 := fun k =>
    le_trans ((List.dropLast_sublist _).count_le ':')
      (le_trans ((List.drop_sublist k ft).count_le ':') h)
  have key : ∀ k : Nat, ':' ∈ (ft.drop k).dropLast →
      ∃ a b, splitOnChar ':' ((ft.drop k).dropLast) = [a, b] := by
    intro k hmem
    have hone : ((ft.drop k).dropLast).count ':' = 1 := by
      have := List.count_pos_iff.mpr hmem
      have := hsub k
      omega
    have hlen := splitOnChar_length ':' ((ft.drop k).dropLast)
    rw [hone] at hlen
    exact list_length_two hlen
  unfold parseFormulaBody
  dsimp only
  split
  · split
    · next hmem =>
      obtain ⟨a, b, hab⟩ := key 4 hmem
      rw [hab]
      dsimp only
      cases cell_ref_to_indices (String.mk a) <;>
        cases cell_ref_to_indices (String.mk b) <;> simp
    · simp
  · split
    · split
      · next hmem =>
        obtain ⟨a, b, hab⟩ := key 8 hmem
        rw [hab]
        dsimp only
        cases cell_ref_to_indices (String.mk a) <;>
          cases cell_ref_to_indices (String.mk b) <;> simp
      · simp
    · simp

/-- Lifting of the no-crash lemma to the raw formula string. -/
theorem parseFormulaChars_isSome_of_colons (cs : List Char) (sheet : Sheet)
    (h : cs.count ':' ≤ 1) : (parseFormulaChars cs sheet).isSome = true := by
  unfold parseFormulaChars
  exact parseFormulaBody_isSome_of_colons _ sheet
    (le_trans (count_colon_formulaText_le cs) h)

/-! ### Frame lemmas for the re-evaluation pass -/

theorem cellFramed_refl (p : String × Cell) : cellFramed p p :=
  ⟨rfl, rfl, rfl, fun _ => rfl⟩

theorem forall₂_cellFramed_refl (l : List (String × Cell)) :
    List.Forall₂ cellFramed l l :=
  List.forall₂_same.mpr (fun p _ => cellFramed_refl p)

theorem evalFormulasAux_frame (sid sname : String)
    (todo : List (String × Cell)) :
    ∀ done, ∃ res,
      (evalFormulasAux sid sname done todo).2 = done ++ res ∧
        List.Forall₂ cellFramed todo res := by
  induction todo with
  | nil => exact fun done => ⟨[], by simp [evalFormulasAux], List.Forall₂.nil⟩
  | cons p rest ih =>
    intro done
    obtain ⟨ref, cell⟩ := p
    rcases hf : cell.formula with _ | f
    · obtain ⟨res, hres, hfa⟩ := ih (done ++ [(ref, cell)])
      refine ⟨(ref, cell) :: res, ?_, List.Forall₂.cons (cellFramed_refl _) hfa⟩
      simp only [evalFormulasAux, hf]
      rw [hres]
      simp
    · by_cases hne : f ≠ ""
      · rcases hp : parse_formula f
            { id := sid, name := sname, cells := done ++ (ref, cell) :: rest }
          with _ | r
        · refine ⟨(ref, cell) :: rest, ?_, forall₂_cellFramed_refl _⟩
          simp only [evalFormulasAux, hf]
          rw [if_pos hne, hp]
        · obtain ⟨res, hres, hfa⟩ :=
            ih (done ++ [(ref, { cell with cachedValue := some r })])
          refine ⟨(ref, { cell with cachedValue := some r }) :: res, ?_, ?_⟩
          · simp only [evalFormulasAux, hf]
            rw [if_pos hne, hp]
            dsimp only
            rw [hf] at hres
            rw [hres]
            simp
          · refine List.Forall₂.cons ⟨rfl, rfl, rfl, fun htr => ?_⟩ hfa
            rw [hf] at htr
            simp [truthyStr, hne] at htr
      · push_neg at hne
        obtain ⟨res, hres, hfa⟩ := ih (done ++ [(ref, cell)])
        refine ⟨(ref, cell) :: res, ?_, List.Forall₂.cons (cellFramed_refl _) hfa⟩
        simp only [evalFormulasAux, hf]
        rw [if_neg (by simp [hne]), hres]
        simp

theorem forall₂_cellFramed_keys {l res : List (String × Cell)}
    (h : List.Forall₂ cellFramed l res) :
    res.map Prod.fst = l.map Prod.fst := by
  induction h with
  | nil => rfl
  | cons hpq _ ih => simp [ih, hpq.1]

/-- The pass never touches the id, the name or anything but the
`cachedValue` of formula-bearing cells, completed or not. -/
theorem evaluate_worksheet_formulas_frame (w : Sheet) :
    (evaluate_worksheet_formulas w).2.id = w.id ∧
    (evaluate_worksheet_formulas w).2.name = w.name ∧
    List.Forall₂ cellFramed w.cells (evaluate_worksheet_formulas w).2.cells := by
  obtain ⟨res, hres, hfa⟩ := evalFormulasAux_frame w.id w.name w.cells []
  refine ⟨rfl, rfl, ?_⟩
  simp only [evaluate_worksheet_formulas]
  rw [hres]
  simpa using hfa

/-! ### Aggregation lemmas -/

theorem parse_formula_mk (X : List Char) (sheet : Sheet) :
    parse_formula (String.mk X) sheet = parseFormulaChars X sheet := rfl

theorem sumRefs_eq_zero (sheet : Sheet) (refs : List String)
    (h : ∀ r ∈ refs, numericAt? sheet r = none) : sumRefs sheet refs = 0 := by
  have key : ∀ (l : List String) (acc : Rat),
      (∀ r ∈ l, numericAt? sheet r = none) →
      l.foldl (fun acc r => acc + ((numericAt? sheet r).getD 0)) acc = acc := by
    intro l
    induction l with
    | nil => intro acc _; rfl
    | cons x xs ih =>
      intro acc hall
      simp only [List.foldl_cons, hall x (List.mem_cons_self x xs),
        Option.getD_none, add_zero]
      exact ih acc fun r hr => hall r (List.mem_cons_of_mem x hr)
  exact key refs 0 h

theorem avgValues_eq_nil (sheet : Sheet) (p1 p2 : Int × Int)
    (h : ∀ r ∈ rectRefs p1 p2, numericAt? sheet r = none) :
    avgValues sheet p1 p2 = [] := by
  simp only [avgValues, List.filterMap_eq_nil_iff]
  exact h

theorem avgRect_eq_zero (sheet : Sheet) (p1 p2 : Int × Int)
    (h : ∀ r ∈ rectRefs p1 p2, numericAt? sheet r = none) :
    avgRect sheet p1 p2 = 0 := by
  simp [avgRect, avgValues_eq_nil sheet p1 p2 h]

theorem rectRefs_comm (p1 p2 : Int × Int) : rectRefs p1 p2 = rectRefs p2 p1 := by
  simp only [rectRefs, min_comm, max_comm]

theorem avgRect_comm (sheet : Sheet) (p1 p2 : Int × Int) :
    avgRect sheet p1 p2 = avgRect sheet p2 p1 := by
  simp only [avgRect, avgValues, rectRefs_comm p1 p2]

/-! ### Comma-list lemmas -/

theorem not_mem_joinWith {c sep : Char} (hcs : c ≠ sep) :
    ∀ pieces : List (List Char), (∀ p ∈ pieces, c ∉ p) →
      c ∉ joinWith sep pieces
  | [], _ => by simp [joinWith]
  | [p], h => by simpa [joinWith] using h p (by simp)
  | p :: q :: rest, h => by
    simp only [joinWith, List.mem_append, List.mem_cons]
    push_neg
    refine ⟨h p (by simp), hcs, ?_⟩
    exact not_mem_joinWith hcs (q :: rest)
      (fun x hx => h x (List.mem_cons_of_mem p hx))

theorem splitOnChar_joinWith (sep : Char) :
    ∀ pieces : List (List Char), pieces ≠ [] → (∀ p ∈ pieces, sep ∉ p) →
      splitOnChar sep (joinWith sep pieces) = pieces
  | [], h, _ => absurd rfl h
  | [p], _, hall => by
    simp only [joinWith]
    exact splitOnChar_not_mem (hall p (by simp))
  | p :: q :: rest, _, hall => by
    simp only [joinWith]
    rw [splitOnChar_append_sep _ (hall p (by simp))]
    rw [splitOnChar_joinWith sep (q :: rest) (by simp)
      (fun x hx => hall x (List.mem_cons_of_mem p hx))]

/-! ### Claim theorems -/

/-- C1, counterexample: contrary to the claim that evaluation always
returns normally, the formula `SUM(A1:B2:C3)` (a SUM range whose
argument contains two colons) makes `parse_formula` raise — the
three-piece result of `range_text.split(":")` cannot be unpacked into
`start_ref, end_ref` — so no numeric or text result is returned. -/
theorem claim_C1_counterexample :
    parse_formula "SUM(A1:B2:C3)" emptySheet = none := by decide

/-- C1 (amended): for every sheet and every formula string containing
at most one colon, `parse_formula` returns normally with either a
numeric or a text result; only a SUM/AVERAGE range argument carrying
two or more colons makes the colon-split unpacking raise `ValueError`
to the caller. -/
theorem claim_C1 (formula : String) (sheet : Sheet)
    (h : formula.data.count ':' ≤ 1) :
    (parse_formula formula sheet).isSome = true :=
  parseFormulaChars_isSome_of_colons formula.data sheet h

/-- C1, witness: the amended theorem at the formula `=SUM(A1:B3)` and
the empty sheet. -/
theorem claim_C1_witness :
    "=SUM(A1:B3)".data.count ':' ≤ 1 ∧
      (parse_formula "=SUM(A1:B3)" emptySheet).isSome = true :=
  ⟨by decide, claim_C1 "=SUM(A1:B3)" emptySheet (by decide)⟩

/-- C2 (confirmed): for every non-negative integer `c`,
`decode_column(encode_column(c)) = c` (`column_to_index` after
`index_to_column`), with the spot values 0 ↦ "A", 25 ↦ "Z", 26 ↦ "AA",
701 ↦ "ZZ"; and for every non-negative pair,
`parse_reference(to_reference(row, col)) = (row, col)`
(`cell_ref_to_indices` after `indices_to_cell_ref`). -/
theorem claim_C2 :
    (∀ c : Nat, column_to_index (index_to_column (c : Int)) = (c : Int)) ∧
    index_to_column 0 = "A" ∧ index_to_column 25 = "Z" ∧
    index_to_column 26 = "AA" ∧ index_to_column 701 = "ZZ" ∧
    ∀ row col : Nat,
      cell_ref_to_indices (indices_to_cell_ref (row : Int) (col : Int)) =
        some ((row : Int), (col : Int)) :=
  ⟨column_to_index_index_to_column, by decide, by decide, by decide, by decide,
    cell_ref_to_indices_indices_to_cell_ref⟩

/-- C7, counterexample: contrary to the claim that an unknown sheet id
leaves the active-sheet pointer unchanged, `set_active_sheet` on the
fresh document with the unknown id `"ghost"` changes the pointer to
`"ghost"`, an id not present in the sheet sequence — so the
presence invariant is not preserved by this operation. -/
theorem claim_C7_counterexample :
    (set_active_sheet initialState "ghost").spreadsheet_data.activeSheet =
        "ghost" ∧
    initialState.spreadsheet_data.activeSheet ≠ "ghost" ∧
    "ghost" ∉
      (set_active_sheet initialState "ghost").spreadsheet_data.sheets.map
        Sheet.id := by
  decide

/-- C7 (amended): `set_active_sheet` assigns the given id to the
active-sheet pointer unconditionally — with no membership check, so an
unknown id is installed and can break the pointer-presence invariant —
and it changes nothing else: the sheet list, the dirty flag and the
current-file metadata are untouched (in particular it never sets the
dirty flag). -/
theorem claim_C7 : ∀ (st : SessionState) (sheet_id : String),
    (set_active_sheet st sheet_id).spreadsheet_data.activeSheet = sheet_id ∧
    (set_active_sheet st sheet_id).spreadsheet_data.sheets =
      st.spreadsheet_data.sheets ∧
    (set_active_sheet st sheet_id).is_modified = st.is_modified ∧
    (set_active_sheet st sheet_id).current_file = st.current_file :=
  fun _ _ => ⟨rfl, rfl, rfl, rfl⟩

/-- C8, counterexample: contrary to the claim that `update_cell` on an
unknown sheet id surfaces a caller-visible failure, the call with the
unknown id `"ghost"` returns normally (no exception) and leaves the
state exactly as it was — a silent no-op. -/
theorem claim_C8_counterexample :
    update_cell initialState "ghost" "A1"
        { value := some (some "5"), formula := none, cachedValue := none } =
      (true, initialState) := by
  decide

/-- C8 (amended): `update_cell` invoked with a sheet id that does not
exist in the document returns silently with no effect: no error is
surfaced, no cell is written, and the dirty flag is not set. -/
theorem claim_C8 (st : SessionState) (sheet_id cell_ref : String)
    (data : CellUpdate)
    (h : findSheet st.spreadsheet_data.sheets sheet_id = none) :
    update_cell st sheet_id cell_ref data = (true, st) := by
  unfold update_cell
  rw [h]

/-- C8, witness: the amended theorem at the unknown id `"ghost"` on the
fresh document. -/
theorem claim_C8_witness :
    findSheet initialState.spreadsheet_data.sheets "ghost" = none ∧
      update_cell initialState "ghost" "A1"
          { value := none, formula := some (some "=1"), cachedValue := none } =
        (true, initialState) :=
  ⟨by decide, claim_C8 initialState "ghost" "A1"
    { value := none, formula := some (some "=1"), cachedValue := none }
    (by decide)⟩

/-- C10 (confirmed): the re-evaluation pass over a worksheet writes
only the `cachedValue` field of cells whose `formula` field is set
(truthy): the sheet's id and name, the cell-key sequence, every cell's
`value` and `formula` fields, and every cell without a truthy formula
are identical before and after the pass. -/
theorem claim_C10 : ∀ w : Sheet,
    (evaluate_worksheet_formulas w).2.id = w.id ∧
    (evaluate_worksheet_formulas w).2.name = w.name ∧
    (evaluate_worksheet_formulas w).2.cells.map Prod.fst =
      w.cells.map Prod.fst ∧
    List.Forall₂ cellFramed w.cells (evaluate_worksheet_formulas w).2.cells := by
  intro w
  obtain ⟨hid, hname, hfa⟩ := evaluate_worksheet_formulas_frame w
  exact ⟨hid, hname, forall₂_cellFramed_keys hfa, hfa⟩

/-- C3, counterexample: contrary to the claim that `parse_reference`
fails on every input with extra characters after the letters-then-digits
part, `"A1x"` is accepted and silently yields `(row 0, col 0)`
(`re.match` anchors only at the start of the string). -/
theorem claim_C3_counterexample :
    cell_ref_to_indices "A1x" = some (0, 0) := by decide

/-- C3 (amended): `parse_reference` succeeds exactly on the strings
that START with one-or-more uppercase letters followed by at least one
digit — so the empty string, lowercase references and inputs with extra
characters before the letter run all fail — but arbitrary extra
characters after the digits are accepted rather than rejected. -/
theorem claim_C3 (s : String) :
    (cell_ref_to_indices s).isSome = true ↔
      ∃ L D rest, s.data = L ++ D ++ rest ∧ L ≠ [] ∧ D ≠ [] ∧
        (∀ c ∈ L, isUpperAZ c = true) ∧ (∀ c ∈ D, isDigit09 c = true) := by
  constructor
  · intro h
    simp only [cell_ref_to_indices] at h
    by_cases hc : s.data.takeWhile isUpperAZ = [] ∨
        ((s.data.dropWhile isUpperAZ).takeWhile isDigit09) = []
    · rw [if_pos hc] at h
      simp at h
    · push_neg at hc
      refine ⟨s.data.takeWhile isUpperAZ,
        (s.data.dropWhile isUpperAZ).takeWhile isDigit09,
        (s.data.dropWhile isUpperAZ).dropWhile isDigit09, ?_, hc.1, hc.2,
        fun c hcm => List.mem_takeWhile_imp hcm,
        fun c hcm => List.mem_takeWhile_imp hcm⟩
      rw [List.append_assoc, List.takeWhile_append_dropWhile,
        List.takeWhile_append_dropWhile]
  · rintro ⟨L, D, rest, hdec, hLne, hDne, hLu, hDd⟩
    cases hcD : D with
    | nil => exact absurd hcD hDne
    | cons d D2 =>
      have hdd : isDigit09 d = true := hDd d (by rw [hcD]; exact List.mem_cons_self d D2)
      have h1 : s.data.takeWhile isUpperAZ = L := by
        rw [hdec, List.append_assoc, takeWhile_append_of_all (D ++ rest) hLu, hcD]
        simp [List.takeWhile_cons, digit_not_upper hdd]
      have h2 : s.data.dropWhile isUpperAZ = D ++ rest := by
        rw [hdec, List.append_assoc, dropWhile_append_of_all (D ++ rest) hLu, hcD]
        simp [List.dropWhile_cons, digit_not_upper hdd]
      have h3 : (D ++ rest).takeWhile isDigit09 = D ++ rest.takeWhile isDigit09 :=
        takeWhile_append_of_all rest hDd
      simp only [cell_ref_to_indices, h1, h2, h3]
      rw [if_neg (by simp [hLne, hcD])]
      simp

/-- C4 (confirmed): the comma-list form is supported for SUM — for any
two-or-more comma-joined references (none containing a comma or colon)
the result is the numeric sum over the whitespace-trimmed references —
while the comma-list form is NOT supported for AVERAGE: the whole
formula text is returned verbatim as a text result. -/
theorem claim_C4 :
    (∀ (sheet : Sheet) (refs : List String), 2 ≤ refs.length →
      (∀ r ∈ refs, ':' ∉ r.data ∧ ',' ∉ r.data) →
      parse_formula
          (String.mk ("SUM(".data ++ joinWith ',' (refs.map String.data) ++ [')']))
          sheet =
        some (.num (sumRefs sheet
          (refs.map (fun r => String.mk (trimChars r.data)))))) ∧
    (∀ (sheet : Sheet) (refs : List String), 2 ≤ refs.length →
      (∀ r ∈ refs, ':' ∉ r.data ∧ ',' ∉ r.data) →
      parse_formula
          (String.mk
            ("AVERAGE(".data ++ joinWith ',' (refs.map String.data) ++ [')']))
          sheet =
        some (.text (String.mk
          ("AVERAGE(".data ++ joinWith ',' (refs.map String.data) ++ [')'])))) := by
  have hnocolon : ∀ (refs : List String),
      (∀ r ∈ refs, ':' ∉ r.data ∧ ',' ∉ r.data) →
      ':' ∉ joinWith ',' (refs.map String.data) := by
    intro refs hall
    refine not_mem_joinWith (by decide) _ ?_
    intro p hp
    obtain ⟨r, hr, hrp⟩ := List.mem_map.mp hp
    exact hrp ▸ (hall r hr).1
  constructor
  · intro sheet refs hlen hall
    rw [parse_formula_mk,
      parseFormulaChars_sum_list sheet _ (hnocolon refs hall)]
    rw [splitOnChar_joinWith ',' (refs.map String.data)
      (by
        intro hnil
        rcases refs with _ | ⟨r, rest⟩
        · simp at hlen
        · simp at hnil)
      (by intro p hp
          obtain ⟨r, hr, hrp⟩ := List.mem_map.mp hp
          exact hrp ▸ (hall r hr).2)]
    rw [List.map_map]
    rfl
  · intro sheet refs _ hall
    rw [parse_formula_mk,
      parseFormulaChars_avg_list sheet _ (hnocolon refs hall)]

/-- C4, witness: the claim theorem at `SUM(A1,B1)` and
`AVERAGE(A1,B1,C1)` on the empty sheet. -/
theorem claim_C4_witness :
    parse_formula "SUM(A1,B1)" emptySheet =
      some (.num (sumRefs emptySheet ["A1", "B1"])) ∧
    parse_formula "AVERAGE(A1,B1,C1)" emptySheet =
      some (.text "AVERAGE(A1,B1,C1)") := by
  constructor
  · have h := claim_C4.1 emptySheet ["A1", "B1"] (by decide) (by decide)
    rw [show String.mk
        ("SUM(".data ++ joinWith ',' (["A1", "B1"].map String.data) ++ [')']) =
      "SUM(A1,B1)" from rfl] at h
    rw [show ["A1", "B1"].map (fun r => String.mk (trimChars r.data)) =
      ["A1", "B1"] from rfl] at h
    exact h
  · have h := claim_C4.2 emptySheet ["A1", "B1", "C1"] (by decide) (by decide)
    rw [show String.mk
        ("AVERAGE(".data ++ joinWith ',' (["A1", "B1", "C1"].map String.data) ++
          [')']) = "AVERAGE(A1,B1,C1)" from rfl] at h
    exact h

/-- C5 (confirmed): during aggregation a visited reference contributes
nothing when its cell is absent, when the cell's `value` field is
absent/`None`/empty, or when the value does not parse as a number; and
a range in which every visited reference is skipped yields `Number(0)`
for SUM and for AVERAGE alike — never a division-by-zero failure. -/
theorem claim_C5 :
    (∀ (sheet : Sheet) (ref : String), lookupCell sheet.cells ref = none →
      numericAt? sheet ref = none) ∧
    (∀ (sheet : Sheet) (ref : String) (cell : Cell),
      lookupCell sheet.cells ref = some cell →
      cell.value = none ∨ cell.value = some "" →
      numericAt? sheet ref = none) ∧
    (∀ (sheet : Sheet) (ref : String) (cell : Cell) (v : String),
      lookupCell sheet.cells ref = some cell → cell.value = some v →
      parseNumber? v = none → numericAt? sheet ref = none) ∧
    (∀ (sheet : Sheet) (r1 r2 : List Char) (p1 p2 : Int × Int),
      ':' ∉ r1 → ':' ∉ r2 →
      cell_ref_to_indices (String.mk r1) = some p1 →
      cell_ref_to_indices (String.mk r2) = some p2 →
      (∀ ref ∈ rectRefs p1 p2, numericAt? sheet ref = none) →
      parse_formula (String.mk ("SUM(".data ++ (r1 ++ ':' :: r2) ++ [')']))
          sheet = some (.num 0) ∧
      parse_formula (String.mk ("AVERAGE(".data ++ (r1 ++ ':' :: r2) ++ [')']))
          sheet = some (.num 0)) := by
  refine ⟨?_, ?_, ?_, ?_⟩
  · intro sheet ref h
    simp [numericAt?, h]
  · intro sheet ref cell h hv
    rcases hv with hv | hv <;> simp [numericAt?, h, hv]
  · intro sheet ref cell v h hv hp
    by_cases hne : v = ""
    · simp [numericAt?, h, hv, hne]
    · simp [numericAt?, h, hv, hne, hp]
  · intro sheet r1 r2 p1 p2 h1 h2 hp1 hp2 hall
    constructor
    · rw [parse_formula_mk,
        parseFormulaChars_sum_range sheet r1 r2 p1 p2 h1 h2 hp1 hp2,
        sumRefs_eq_zero sheet _ hall]
    · rw [parse_formula_mk,
        parseFormulaChars_avg_range sheet r1 r2 p1 p2 h1 h2 hp1 hp2,
        avgRect_eq_zero sheet p1 p2 hall]

/-- C5, witness: the claim theorem's range conjunct at `A1:B2` on the
empty sheet, where every visited cell is absent. -/
theorem claim_C5_witness :
    parse_formula "SUM(A1:B2)" emptySheet = some (.num 0) ∧
    parse_formula "AVERAGE(A1:B2)" emptySheet = some (.num 0) := by
  have h := claim_C5.2.2.2 emptySheet "A1".data "B2".data (0, 0) (1, 1)
    (by decide) (by decide) (by decide) (by decide) (by decide)
  rw [show String.mk ("SUM(".data ++ ("A1".data ++ ':' :: "B2".data) ++ [')']) =
    "SUM(A1:B2)" from rfl] at h
  rw [show String.mk
      ("AVERAGE(".data ++ ("A1".data ++ ':' :: "B2".data) ++ [')']) =
    "AVERAGE(A1:B2)" from rfl] at h
  exact h

/-- C6 (confirmed): the rectangle of a range formula is normalized with
min/max on rows and columns independently, so for parseable corner
references the SUM over `r1:r2` equals the SUM over `r2:r1`, and the
same for AVERAGE. -/
theorem claim_C6 : ∀ (sheet : Sheet) (r1 r2 : List Char) (p1 p2 : Int × Int),
    ':' ∉ r1 → ':' ∉ r2 →
    cell_ref_to_indices (String.mk r1) = some p1 →
    cell_ref_to_indices (String.mk r2) = some p2 →
    parse_formula (String.mk ("SUM(".data ++ (r1 ++ ':' :: r2) ++ [')'])) sheet =
      parse_formula (String.mk ("SUM(".data ++ (r2 ++ ':' :: r1) ++ [')'])) sheet ∧
    parse_formula (String.mk ("AVERAGE(".data ++ (r1 ++ ':' :: r2) ++ [')'])) sheet =
      parse_formula (String.mk ("AVERAGE(".data ++ (r2 ++ ':' :: r1) ++ [')'])) sheet := by
  intro sheet r1 r2 p1 p2 h1 h2 hp1 hp2
  constructor
  · rw [parse_formula_mk, parse_formula_mk,
      parseFormulaChars_sum_range sheet r1 r2 p1 p2 h1 h2 hp1 hp2,
      parseFormulaChars_sum_range sheet r2 r1 p2 p1 h2 h1 hp2 hp1,
      rectRefs_comm p1 p2]
  · rw [parse_formula_mk, parse_formula_mk,
      parseFormulaChars_avg_range sheet r1 r2 p1 p2 h1 h2 hp1 hp2,
      parseFormulaChars_avg_range sheet r2 r1 p2 p1 h2 h1 hp2 hp1,
      avgRect_comm sheet p1 p2]

/-- C6, witness: the claim theorem at the corners `B3` and `A1`,
matching the spec's example that `B3:A1` is equivalent to `A1:B3`. -/
theorem claim_C6_witness :
    parse_formula "SUM(B3:A1)" emptySheet =
      parse_formula "SUM(A1:B3)" emptySheet ∧
    parse_formula "AVERAGE(B3:A1)" emptySheet =
      parse_formula "AVERAGE(A1:B3)" emptySheet := by
  have h := claim_C6 emptySheet "B3".data "A1".data (2, 1) (0, 0)
    (by decide) (by decide) (by decide) (by decide)
  rw [show String.mk ("SUM(".data ++ ("B3".data ++ ':' :: "A1".data) ++ [')']) =
      "SUM(B3:A1)" from rfl,
    show String.mk ("SUM(".data ++ ("A1".data ++ ':' :: "B3".data) ++ [')']) =
      "SUM(A1:B3)" from rfl,
    show String.mk
        ("AVERAGE(".data ++ ("B3".data ++ ':' :: "A1".data) ++ [')']) =
      "AVERAGE(B3:A1)" from rfl,
    show String.mk
        ("AVERAGE(".data ++ ("A1".data ++ ':' :: "B3".data) ++ [')']) =
      "AVERAGE(A1:B3)" from rfl] at h
  exact h

/-- C9, counterexample: a load that fails does NOT always leave the
in-memory state unmodified.  Loading the record `crashFileData` — whose
stored formula `=SUM(A1:B2:C3)` makes the post-load re-evaluation
raise — returns failure, yet the previous document is gone: the
current-file metadata now points at the loaded record and the session
state differs from the state before the call. -/
theorem claim_C9_counterexample :
    (load_spreadsheet initialState [("f1", crashFileData)] "f1").1 = false ∧
    (load_spreadsheet initialState [("f1", crashFileData)] "f1").2.current_file =
      some crashFileData ∧
    (load_spreadsheet initialState [("f1", crashFileData)] "f1").2 ≠
      initialState := by
  decide

/-- C9 (amended): a failed save leaves the in-memory state (including
the dirty flag) and the durable store unchanged; a load that fails
because the record cannot be read leaves the in-memory state unchanged;
but a load that fails during the post-load formula re-evaluation leaves
the freshly loaded document in place instead of the previous one. -/
theorem claim_C9 :
    (∀ (st : SessionState) (store : Store) (writeOk : Bool)
        (name : Option String) (freshId now : String),
      (save_spreadsheet st store writeOk name freshId now).1 = false →
      (save_spreadsheet st store writeOk name freshId now).2.1 = st ∧
      (save_spreadsheet st store writeOk name freshId now).2.2 = store) ∧
    (∀ (st : SessionState) (store : Store) (file_id : String),
      storeGet store file_id = none →
      load_spreadsheet st store file_id = (false, st)) := by
  constructor
  · intro st store writeOk name freshId now h
    unfold save_spreadsheet at h ⊢
    by_cases hg : truthyName name = false ∧ st.current_file = none
    · rw [if_pos hg]
      exact ⟨rfl, rfl⟩
    · rw [if_neg hg] at h ⊢
      cases writeOk
      · exact ⟨rfl, rfl⟩
      · simp at h
  · intro st store file_id h
    unfold load_spreadsheet
    rw [h]

/-- C9, witness: the amended theorem at a failing write on the fresh
document and at a load of a missing record. -/
theorem claim_C9_witness :
    ((save_spreadsheet initialState [] false (some "Doc") "id1" "t0").2.1 =
        initialState ∧
      (save_spreadsheet initialState [] false (some "Doc") "id1" "t0").2.2 =
        []) ∧
    load_spreadsheet initialState [] "missing" = (false, initialState) :=
  ⟨claim_C9.1 initialState [] false (some "Doc") "id1" "t0" (by decide),
   claim_C9.2 initialState [] "missing" (by decide)⟩
